import Mathlib

/-!
Shallow embedding of the `declarative-cli` repository (package `dcli`):

* `src/dcli/schema.py` — schema data model (`Arg`, `NodeBase`, `RootNode`,
  `SubNode`) and its `from_dict` construction;
* `src/dcli/clis/standard.py` — the strict, argparse-style front end
  (`CLIParser.parse_args`);
* `src/dcli/clis/bot.py` — the permissive, conversational front end
  (`CLIParser.parse_args`, `format_help`).

Python `type` values (`int`/`str`/`float`/`bool`/`list`) are embedded as the
closed inductive `PyType`; Python runtime values appearing in a parsed
namespace are embedded as `PyVal`.  Exceptions raised during schema
construction are embedded as `Except SchemaError _`.  The argparse calls made
by the two front ends are embedded by an explicit binder over the exact rule
shapes this code constructs (store_true flags, single-value options and
positionals, and REMAINDER arguments); printing and `sys.exit` are embedded in
the `Outcome` type.
-/

/-- Embedding of the Python types used as the `type` attribute of a schema
arg (`schema.py`, `Arg._process_type_field`). -/
inductive PyType where
  | int
  | str
  | float
  | bool
  | list
deriving DecidableEq, Repr

/-- Embedding of the Python values stored in a parsed argparse namespace:
`None`, booleans (store_true flags), strings, and lists of strings
(REMAINDER). -/
inductive PyVal where
  | none
  | bool (b : Bool)
  | str (s : String)
  | strList (l : List String)
deriving DecidableEq, Repr

/-- Embedding of `schema.py`'s `Arg` (after `from_dict` processing: the
`type` field already mapped to a Python type). -/
structure Arg where
  name : String
  help : String
  command : Option String
  positional : Bool
  type_ : PyType
  enum : Option (List String)
  defaultVal : Option String
deriving DecidableEq, Repr

/-- Embedding of `schema.py`'s node classes.  A single inductive covers
`RootNode` (keyword `none`) and `SubNode` (keyword `some _`), exactly as
`NodeBase` carries an optional keyword.  The Python `parent` back-pointer is
not carried: the embedding is a pure tree, and the only consumer of `parent`
(`format_help`'s keyword-chain climb) receives the ancestor keyword chain of
the walked-to node explicitly, which for a node reached by the walk is the
list of consumed keyword tokens. -/
inductive Node where
  | mk (keyword : Option String) (help : String) (command : Option String)
       (args : List Arg) (subtree : List Node)

/-- The `keyword` attribute of a node. -/
def Node.keyword : Node → Option String
  | .mk k _ _ _ _ => k

/-- The `help` attribute of a node. -/
def Node.help : Node → String
  | .mk _ h _ _ _ => h

/-- The `command` attribute of a node. -/
def Node.command : Node → Option String
  | .mk _ _ c _ _ => c

/-- The `args` attribute of a node. -/
def Node.args : Node → List Arg
  | .mk _ _ _ a _ => a

/-- The `subtree` attribute of a node. -/
def Node.subtree : Node → List Node
  | .mk _ _ _ _ s => s

/-- Embedding of `keywords = {x.keyword: x for x in node.subtree}` followed by
`keywords[arg]` (both front ends).  A Python dict comprehension lets a later
entry overwrite an earlier one with the same key, so the fold keeps the last
matching child. -/
def lookupKeyword (subtree : List Node) (t : String) : Option Node :=
  subtree.foldl (fun acc c => if c.keyword = some t then some c else acc) none

/-- Result of the keyword walk: the terminal node, the consumed keyword
tokens, and the remaining tokens. -/
structure WalkResult where
  node : Node
  consumed : List String
  remaining : List String

/-- Embedding of the keyword-walk loop of `bot.py` `parse_args` (lines
63–73): while the current node has a subtree and tokens remain, the head
token is looked up among the child keywords; on a hit it is consumed and the
walk descends, otherwise the loop breaks.  This is the shared tree walker of
the spec (§4.2); `standard.py` runs the same loop with help-token stripping
interleaved, embedded separately as `walkStd`. -/
def walk : Node → List String → WalkResult
  | node, [] => ⟨node, [], []⟩
  | node, t :: rest =>
    if node.subtree.isEmpty then ⟨node, [], t :: rest⟩
    else
      match lookupKeyword node.subtree t with
      | some c =>
        let r := walk c rest
        ⟨r.node, t :: r.consumed, r.remaining⟩
      | none => ⟨node, [], t :: rest⟩

/-- Result of the strict variant's scanning loop: terminal node, consumed
keyword tokens, remaining tokens, and the recorded `show_help` flag. -/
structure StdWalkResult where
  node : Node
  consumed : List String
  remaining : List String
  showHelp : Bool

/-- Embedding of the scanning loop of `standard.py` `parse_args` (lines
42–58): identical to `walk`, except that a head token equal to `-h` or
`--help` (checked before keyword lookup) is popped without being appended to
the consumed list, `show_help` is set, and scanning continues at the same
node. -/
def walkStd : Node → List String → StdWalkResult
  | node, [] => ⟨node, [], [], false⟩
  | node, t :: rest =>
    if node.subtree.isEmpty then ⟨node, [], t :: rest, false⟩
    else if t = "-h" ∨ t = "--help" then
      let r := walkStd node rest
      ⟨r.node, r.consumed, r.remaining, true⟩
    else
      match lookupKeyword node.subtree t with
      | some c =>
        let r := walkStd c rest
        ⟨r.node, t :: r.consumed, r.remaining, r.showHelp⟩
      | none => ⟨node, [], t :: rest, false⟩

/-- Embedding of the help detection of `bot.py` `parse_args` (lines 51–61):
pop a leading `"help"`, then pop a trailing `"?"`/`"help"` from the
possibly-already-popped list; an `IndexError` on the empty list is swallowed.
Returns the `show_help` flag and the stripped token list. -/
def botDetectHelp (args : List String) : Bool × List String :=
  match args with
  | [] => (false, [])
  | t :: rest =>
    let p : Bool × List String := if t = "help" then (true, rest) else (false, t :: rest)
    match p.2.getLast? with
    | .none => p
    | some last =>
      if last = "?" ∨ last = "help" then (true, p.2.dropLast) else p

-- Example tree root→{A→{B}} used by several concrete checks below.

/-- Leaf node `B` of the example tree root→{A→{B}}. -/
def exB : Node := .mk (some "B") "help B" Option.none [] []

/-- Node `A` of the example tree root→{A→{B}}. -/
def exA : Node := .mk (some "A") "help A" Option.none [] [exB]

/-- Root of the example tree root→{A→{B}}. -/
def exRoot : Node := .mk Option.none "root help" Option.none [] [exA]

/-- Raw (pre-construction) form of one entry of a schema `args` list, as fed
to `Arg.from_dict` (`schema.py` lines 36–41).  `Option` fields model the
presence/absence of the corresponding dict key (`help` has no default and a
missing key raises; `type` defaults to `"string"`). -/
structure RawArg where
  name : String
  help : Option String
  command : Option String := Option.none
  positional : Bool := false
  type_ : Option String := Option.none
  enum : Option (List String) := Option.none
  defaultVal : Option String := Option.none
deriving DecidableEq, Repr

/-- Raw (pre-construction) form of a schema node, as fed to
`NodeBase.from_dict` (`schema.py` lines 85–91). -/
inductive RawNode where
  | mk (keyword : Option String) (help : Option String) (command : Option String)
       (args : List RawArg) (subtree : List RawNode)

/-- The `keyword` key of a raw node. -/
def RawNode.keyword : RawNode → Option String
  | .mk k _ _ _ _ => k

/-- The `help` key of a raw node. -/
def RawNode.help : RawNode → Option String
  | .mk _ h _ _ _ => h

/-- The `args` key of a raw node. -/
def RawNode.args : RawNode → List RawArg
  | .mk _ _ _ a _ => a

/-- The `subtree` key of a raw node. -/
def RawNode.subtree : RawNode → List RawNode
  | .mk _ _ _ _ s => s

/-- Embedding of the exceptions `schema.py` can raise while building a schema
from raw data: the `ValueError` of `Arg._process_type_field` for an unknown
type string, the `KeyError` of `kwargs.pop("help")` for a missing help field,
the `TypeError` of `RootNode.__init__` when given a keyword, and the
`TypeError` of `SubNode.__init__` when the keyword is missing.  The spec's
error taxonomy groups all build-time failures under the name `SchemaError`. -/
inductive SchemaError where
  | unrecognisedType (value : String)
  | missingHelp
  | rootKeyword
  | subMissingKeyword
deriving DecidableEq, Repr

/-- Embedding of `Arg._process_type_field` (`schema.py` lines 43–61): the
accepted type strings map to Python types, anything else raises. -/
def process_type_field (value : String) : Except SchemaError PyType :=
  if value = "integer" then .ok .int
  else if value = "string" then .ok .str
  else if value = "float" then .ok .float
  else if value = "flag" then .ok .bool
  else if value = "text" then .ok .list
  else .error (.unrecognisedType value)

/-- Embedding of `Arg.from_dict` (`schema.py` lines 36–41): requires the
`help` key and maps the `type` key (default `"string"`) through
`_process_type_field`.  No other validation is performed. -/
def Arg.from_dict (d : RawArg) : Except SchemaError Arg :=
  match d.help with
  | Option.none => .error .missingHelp
  | some h =>
    match process_type_field (d.type_.getD "string") with
    | .error e => .error e
    | .ok t => .ok ⟨d.name, h, d.command, d.positional, t, d.enum, d.defaultVal⟩

/-- Embedding of `NodeBase._process_args_field` (`schema.py` lines 97–99):
build each arg in order, propagating the first failure. -/
def process_args_field : List RawArg → Except SchemaError (List Arg)
  | [] => .ok []
  | a :: rest =>
    match Arg.from_dict a with
    | .error e => .error e
    | .ok a' =>
      match process_args_field rest with
      | .error e => .error e
      | .ok rest' => .ok (a' :: rest')

mutual

/-- Embedding of `SubNode.from_dict` (`schema.py`: `NodeBase.from_dict` with
`cls = SubNode`): requires a keyword (else `SubNode.__init__` raises), builds
the args and the subtree recursively.  No uniqueness validation of sibling
keywords or argument names is performed anywhere on this path. -/
def SubNode_from_dict : RawNode → Except SchemaError Node
  | .mk keyword help command args subtree =>
    match keyword with
    | Option.none => .error .subMissingKeyword
    | some k =>
      match help with
      | Option.none => .error .missingHelp
      | some h =>
        match process_args_field args with
        | .error e => .error e
        | .ok args' =>
          match process_subtree_field subtree with
          | .error e => .error e
          | .ok sub' => .ok (.mk (some k) h command args' sub')

/-- Embedding of `NodeBase._process_subtree_field` (`schema.py` lines 93–95):
each raw subtree entry is built with `SubNode.from_dict`. -/
def process_subtree_field : List RawNode → Except SchemaError (List Node)
  | [] => .ok []
  | n :: rest =>
    match SubNode_from_dict n with
    | .error e => .error e
    | .ok n' =>
      match process_subtree_field rest with
      | .error e => .error e
      | .ok rest' => .ok (n' :: rest')

end

/-- Embedding of `RootNode.from_dict` (`schema.py`: `NodeBase.from_dict` with
`cls = RootNode`): a present `keyword` key makes `RootNode.__init__` raise;
otherwise args and subtree are built exactly as for a sub-node. -/
def RootNode_from_dict : RawNode → Except SchemaError Node
  | .mk keyword help command args subtree =>
    match keyword with
    | some _ => .error .rootKeyword
    | Option.none =>
      match help with
      | Option.none => .error .missingHelp
      | some h =>
        match process_args_field args with
        | .error e => .error e
        | .ok args' =>
          match process_subtree_field subtree with
          | .error e => .error e
          | .ok sub' => .ok (.mk Option.none h command args' sub')

/-- Embedding of `str.replace("-", "_")` as applied to argument names. -/
def replaceDash (s : String) : String :=
  ⟨s.data.map fun c => if c = '-' then '_' else c⟩

/-- Whether argparse classifies a token as an optional (it begins with a
prefix character and is not the lone `"-"`). -/
def optionLike (t : String) : Bool :=
  match t.data with
  | [] => false
  | [_] => false
  | c :: _ :: _ => c = '-'

/-- Embedding of `bot.py` `format_help` (lines 113–143).  The Python code
climbs `parent` links collecting the keywords already entered; the embedding
receives that ancestor keyword chain explicitly (for a node reached by the
walk it is the consumed token list). -/
def format_help (ancestorKeywords : List String) (node : Node) : String :=
  let keywords := "<bot>" :: ancestorKeywords
  let optsString :=
    if ¬node.subtree.isEmpty then
      let options := node.subtree.map fun n => n.keyword.getD ""
      let braceL := if node.command.isSome then "[" else "\x7b"
      let braceR := if node.command.isSome then "]" else "\x7d"
      braceL ++ String.intercalate " | " options ++ braceR
    else
      let options := node.args.map fun a =>
        if a.type_ = PyType.bool then a.name else a.name ++ " ..."
      String.intercalate " " (options.map fun o => "[" ++ o ++ "]")
  String.intercalate " " (keywords ++ [optsString])

/-- One pass of the list comprehension in `bot.py` `parse_args` (lines
91–93): every token equal to the bare arg name is replaced by the
dash-prefixed form. -/
def rewritePass (name : String) (argv : List String) : List String :=
  argv.map fun a => if a = name then "--" ++ name else a

/-- Embedding of the `argv_for_argparse` rewriting loop of `bot.py`
`parse_args` (lines 83–93): for each non-positional arg, in declaration
order, apply `rewritePass` with its name. -/
def rewriteArgv (args : List Arg) (argv : List String) : List String :=
  args.foldl (fun acc arg => if arg.positional then acc else rewritePass arg.name acc) argv

/-- Shape of one argparse rule as constructed by the two front ends: a bare
`store_true` flag, a single-value argument, or a `REMAINDER` argument. -/
inductive ArgKind where
  | single
  | flag
  | remainder
deriving DecidableEq, Repr

/-- An optional (dash-prefixed) argparse rule: its option string (`--name`),
its namespace destination, and its kind. -/
structure OptSpec where
  optString : String
  dest : String
  kind : ArgKind
deriving DecidableEq, Repr

/-- A positional argparse rule: its namespace destination and its kind. -/
structure PosSpec where
  dest : String
  kind : ArgKind
deriving DecidableEq, Repr

/-- The kind of argparse rule created for a schema arg: `store_true` for
`bool` (flag) args, `nargs=REMAINDER` for `list` (text) args, otherwise a
single-value argument (both front ends build exactly these `kwargs`). -/
def kindOf : PyType → ArgKind
  | .bool => .flag
  | .list => .remainder
  | _ => .single

/-- Embedding of the `add_argument` loops of both front ends (`standard.py`
lines 80–88, `bot.py` lines 83–99): a positional arg registers under its name
with dashes replaced, a non-positional arg registers under `--name`.
argparse itself raises at registration time for a positional `store_true`
action (`nargs for store actions must be != 0`) and for two arguments sharing
one option string (`conflicting option strings`); both are surfaced as
`Except.error` here since they escape the front ends uncaught. -/
def toSpecs : List Arg → Except String (List OptSpec × List PosSpec)
  | [] => .ok ([], [])
  | a :: rest =>
    match toSpecs rest with
    | .error e => .error e
    | .ok (opts, poss) =>
      if a.positional then
        if a.type_ = PyType.bool then .error "nargs for store actions must be != 0"
        else .ok (opts, ⟨replaceDash a.name, kindOf a.type_⟩ :: poss)
      else
        if (rest.filter fun b => ¬b.positional ∧ b.name = a.name).isEmpty then
          .ok (⟨"--" ++ a.name, replaceDash a.name, kindOf a.type_⟩ :: opts, poss)
        else .error ("conflicting option strings: --" ++ a.name)

/-- Parsed namespace contents: an association of destination names to
values. -/
abbrev Bindings := List (String × PyVal)

/-- Overwrite (or add) one destination in a namespace. -/
def setVal : Bindings → String → PyVal → Bindings
  | [], k, v => [(k, v)]
  | (k', v') :: rest, k, v =>
    if k' = k then (k, v) :: rest else (k', v') :: setVal rest k v

/-- Read one destination of a namespace. -/
def getVal (b : Bindings) (k : String) : Option PyVal :=
  (List.find? (fun p => p.1 = k) b).map Prod.snd

/-- The default value argparse stores before parsing: `False` for
`store_true` flags, `None` otherwise. -/
def defaultFor : ArgKind → PyVal
  | .flag => .bool false
  | _ => .none

/-- The namespace as initialised by argparse: every registered destination
set to its default. -/
def initBindings (opts : List OptSpec) (poss : List PosSpec) : Bindings :=
  opts.map (fun o => (o.dest, defaultFor o.kind)) ++ poss.map (fun p => (p.dest, defaultFor p.kind))

/-- Locate the optional rule registered under option string `t`. -/
def findOpt (opts : List OptSpec) (t : String) : Option OptSpec :=
  opts.find? fun o => o.optString = t

/-- Result of one `parse_args` call on the underlying argparse parser:
the built-in help action fired (`add_help` parsers only), a parse error
(argparse `error()`), or a parsed namespace together with the unrecognized
extra tokens. -/
inductive BindResult where
  | helpHit
  | parseError (msg : String)
  | done (vals : Bindings) (extras : List String)
deriving DecidableEq, Repr

/-- End-of-token handling: a still-pending single-value positional is a
missing required argument; a pending `REMAINDER` positional matches the empty
token sequence. -/
def finishPos : List PosSpec → Bindings → List String → BindResult
  | [], vals, extras => .done vals extras
  | p :: poss, vals, extras =>
    match p.kind with
    | .single => .parseError ("the following arguments are required: " ++ p.dest)
    | .remainder => finishPos poss (setVal vals p.dest (.strList [])) extras
    | .flag => .parseError "nargs for store actions must be != 0"

/-- Embedding of argparse's token consumption for the rule shapes this code
registers (help action, `store_true` options, single-value options,
`REMAINDER`, single-value positionals, unrecognized-token collection).  This
models the documented argparse behaviour on the fragment the two front ends
construct: an option token dispatches to its registered rule; a single-value
rule refuses a following option-like token (`expected one argument`); a
`REMAINDER` rule swallows every token after it; an unregistered option-like
token or a token with no pending positional is collected as an extra. -/
def bindLoop (helpEnabled : Bool) (opts : List OptSpec) :
    List PosSpec → List String → Bindings → List String → BindResult
  | poss, [], vals, extras => finishPos poss vals extras
  | poss, t :: rest, vals, extras =>
    if helpEnabled ∧ (t = "-h" ∨ t = "--help") then .helpHit
    else
      match findOpt opts t with
      | some o =>
        match o.kind with
        | .flag => bindLoop helpEnabled opts poss rest (setVal vals o.dest (.bool true)) extras
        | .remainder => finishPos poss (setVal vals o.dest (.strList rest)) extras
        | .single =>
          match rest with
          | [] => .parseError ("argument " ++ t ++ ": expected one argument")
          | v :: rest' =>
            if optionLike v then
              .parseError ("argument " ++ t ++ ": expected one argument")
            else bindLoop helpEnabled opts poss rest' (setVal vals o.dest (.str v)) extras
      | Option.none =>
        if optionLike t then
          bindLoop helpEnabled opts poss rest vals (extras ++ [t])
        else
          match poss.head? with
          | Option.none => bindLoop helpEnabled opts poss rest vals (extras ++ [t])
          | some p =>
            match p.kind with
            | .single => bindLoop helpEnabled opts poss.tail rest (setVal vals p.dest (.str t)) extras
            | .remainder => finishPos poss.tail (setVal vals p.dest (.strList (t :: rest))) extras
            | .flag => .parseError "nargs for store actions must be != 0"

/-- Overall outcome of one front-end `parse_args` call, with the boundary
side effects made explicit: a returned namespace (command, values, and the
`remaining_args` attribute), help text printed followed by `sys.exit(0)`
(`text` is `none` when the text is argparse's own rendering, which is not
modelled), an error message printed followed by a non-zero `sys.exit`, or an
uncaught internal exception. -/
inductive Outcome where
  | ok (command : Option String) (values : Bindings) (remainingArgs : List String)
  | helpShown (text : Option String) (status : Nat)
  | errorShown (message : String) (status : Nat)
  | crashed (msg : String)
deriving DecidableEq, Repr

/-- Whether an outcome is the help path. -/
def Outcome.isHelpShown : Outcome → Bool
  | .helpShown _ _ => true
  | _ => false

/-- Embedding of `standard.py` `CLIParser.parse_args` (lines 32–93): run the
scanning loop; if help was recorded, re-insert a leading `--help`; then hand
the remaining tokens to a default argparse parser (`add_help` enabled) built
from the reached node's args.  On success the namespace gets the node's
command and the post-walk `remaining_args`; on an argparse error the parser
prints usage plus the message and exits with status 2; the built-in help
action prints help and exits with status 0. -/
def standardParse (schema : Node) (args : List String) : Outcome :=
  let w := walkStd schema args
  let remaining := if w.showHelp then "--help" :: w.remaining else w.remaining
  match toSpecs w.node.args with
  | .error e => .crashed e
  | .ok (opts, poss) =>
    match bindLoop true opts poss remaining (initBindings opts poss) [] with
    | .helpHit => .helpShown Option.none 0
    | .parseError msg => .errorShown msg 2
    | .done vals extras =>
      if extras.isEmpty then .ok w.node.command vals remaining
      else .errorShown ("unrecognized arguments: " ++ String.intercalate " " extras) 2

/-- Embedding of `bot.py` `CLIParser.parse_args` (lines 42–111): detect and
strip help markers from the original input; walk; on help print
`format_help` for the reached node and exit 0 without binding.  Otherwise
rewrite bare option names to `--name`, parse with a no-help custom parser
whose `error()` raises, catch the raise, print the message plus the node's
help and exit 2.  On success the namespace gets the node's command and the
(pre-rewrite) post-walk `remaining_args`. -/
def botParse (schema : Node) (args : List String) : Outcome :=
  let showHelp := (botDetectHelp args).1
  let w := walk schema (botDetectHelp args).2
  if showHelp then .helpShown (some (format_help w.consumed w.node)) 0
  else
    match toSpecs w.node.args with
    | .error e => .crashed e
    | .ok (opts, poss) =>
      match bindLoop false opts poss (rewriteArgv w.node.args w.remaining)
          (initBindings opts poss) [] with
      | .helpHit => .crashed "unreachable: help action disabled"
      | .parseError msg =>
        .errorShown ("Error parsing the command: " ++ msg ++ "\n" ++
          format_help w.consumed w.node) 2
      | .done vals extras =>
        if extras.isEmpty then .ok w.node.command vals w.remaining
        else
          .errorShown ("Error parsing the command: unrecognized arguments: " ++
            String.intercalate " " extras ++ "\n" ++ format_help w.consumed w.node) 2

/-- Schema arg `verbose` of the round-trip example (§8 of the spec). -/
def exVerbose : Arg := ⟨"verbose", "be verbose", Option.none, false, .bool, Option.none, Option.none⟩

/-- Node `status` carrying command `show_status` and the flag `verbose`. -/
def exStatus : Node := .mk (some "status") "show status" (some "show_status") [exVerbose] []

/-- Root of the `status` example schema. -/
def exRootS : Node := .mk Option.none "root help" Option.none [] [exStatus]

/-- Schema arg `x`: a non-positional single-value (string) option. -/
def exArgX : Arg := ⟨"x", "an x", Option.none, false, .str, Option.none, Option.none⟩

/-- Node `set` carrying command `do_set` and the option `x`. -/
def exSet : Node := .mk (some "set") "set cmd" (some "do_set") [exArgX] []

/-- Root of the `set` example schema. -/
def exRootSet : Node := .mk Option.none "root" Option.none [] [exSet]

/-- State of the strict/permissive keyword-walk loop: the immutable schema,
the caller's original argument list (never written after the initial
`list(args)` copy), the current node, and the mutable locals
`consumed_args`/`remaining_args`. -/
structure WalkState where
  schema : Node
  callerArgs : List String
  node : Node
  consumed : List String
  remaining : List String

/-- One iteration of the keyword-walk loop as a transition relation: at a
node with children and a head token matching a child keyword, the token moves
from `remaining` to `consumed` and the walk descends.  The schema and the
caller's list are untouched. -/
inductive WStep : WalkState → WalkState → Prop where
  | descend (schema : Node) (callerArgs : List String) (node child : Node)
      (consumed : List String) (t : String) (rest : List String)
      (hne : node.subtree.isEmpty = false)
      (hc : lookupKeyword node.subtree t = some child) :
      WStep ⟨schema, callerArgs, node, consumed, t :: rest⟩
            ⟨schema, callerArgs, child, consumed ++ [t], rest⟩

/-- Raw configuration with two sibling nodes sharing the keyword `"a"`. -/
def rawDupKw : RawNode :=
  .mk Option.none (some "r") Option.none []
    [.mk (some "a") (some "ha") Option.none [] [],
     .mk (some "a") (some "ha2") Option.none [] []]

/-- Raw sub-node configuration with two args sharing the name `"x"`. -/
def rawDupArgs : RawNode :=
  .mk (some "s") (some "hs") Option.none
    [⟨"x", some "h1", Option.none, false, Option.none, Option.none, Option.none⟩,
     ⟨"x", some "h2", Option.none, false, Option.none, Option.none, Option.none⟩] []

/-- Raw root configuration carrying both collisions at once. -/
def rawDupBoth : RawNode :=
  .mk Option.none (some "r") Option.none
    [⟨"x", some "h1", Option.none, false, Option.none, Option.none, Option.none⟩,
     ⟨"x", some "h2", Option.none, false, Option.none, Option.none, Option.none⟩]
    [.mk (some "a") (some "ha") Option.none [] [],
     .mk (some "a") (some "ha2") Option.none [] []]

/-- C6 counterexample: schema construction does not fail on a configuration
with two sibling nodes sharing a keyword, nor on one with two args sharing a
name on one node — both build successfully and the resulting tree contains
the collision. -/
theorem schema_collision_cex :
    (RootNode_from_dict rawDupKw).toOption.map (fun n => n.subtree.map Node.keyword) =
      some [some "a", some "a"] ∧
    (SubNode_from_dict rawDupArgs).toOption.map (fun n => n.args.map Arg.name) =
      some ["x", "x"] := ⟨rfl, rfl⟩

/-- Per-field well-formedness of one raw arg: a help text is present and the
type string (default `"string"`) is one of the five accepted ones.  This is
everything `Arg.from_dict` checks. -/
def wfRawArg (a : RawArg) : Bool :=
  a.help.isSome &&
    (a.type_.getD "string" == "integer" || a.type_.getD "string" == "string" ||
     a.type_.getD "string" == "float" || a.type_.getD "string" == "flag" ||
     a.type_.getD "string" == "text")

/-- Per-field well-formedness of a raw args list (no uniqueness condition of
any kind). -/
def wfRawArgs : List RawArg → Bool
  | [] => true
  | a :: rest => wfRawArg a && wfRawArgs rest

mutual

/-- Per-field well-formedness of a raw sub-node: keyword and help present,
args and children well-formed.  Deliberately contains no sibling-keyword or
arg-name uniqueness condition, because the construction code checks none. -/
def wfSub : RawNode → Bool
  | .mk kw h _ args st => kw.isSome && h.isSome && wfRawArgs args && wfSubList st

/-- Per-field well-formedness of a raw subtree list. -/
def wfSubList : List RawNode → Bool
  | [] => true
  | n :: rest => wfSub n && wfSubList rest

end

-- Helper lemmas about the walk loops.

/-- The shared keyword walk never drops, duplicates or reorders tokens:
consumed and remaining concatenate back to the input. -/
theorem walk_app_aux : ∀ (toks : List String) (node : Node),
    (walk node toks).consumed ++ (walk node toks).remaining = toks := by
  intro toks
  induction toks with
  | nil => intro node; simp [walk]
  | cons t rest ih =>
    intro node
    cases h : node.subtree.isEmpty with
    | true => simp [walk, h]
    | false =>
      cases hl : lookupKeyword node.subtree t with
      | none => simp [walk, h, hl]
      | some c => simp [walk, h, hl, ih c]

/-- The strict scanning loop preserves tokens as long as none of them is a
help token. -/
theorem walkStd_app_aux : ∀ (toks : List String) (node : Node),
    (∀ t ∈ toks, t ≠ "-h" ∧ t ≠ "--help") →
    (walkStd node toks).consumed ++ (walkStd node toks).remaining = toks := by
  intro toks
  induction toks with
  | nil => intro node _; simp [walkStd]
  | cons t rest ih =>
    intro node hn
    have ht := hn t (by simp)
    have hrest : ∀ u ∈ rest, u ≠ "-h" ∧ u ≠ "--help" := fun u hu => hn u (by simp [hu])
    cases h : node.subtree.isEmpty with
    | true => simp [walkStd, h]
    | false =>
      cases hl : lookupKeyword node.subtree t with
      | none => simp [walkStd, h, ht.1, ht.2, hl]
      | some c => simp [walkStd, h, ht.1, ht.2, hl, ih c hrest]

/-- C1: the tree walk starts at the given root; at a node with children and a
next token, a token equal to a child keyword is consumed, appended to the
consumed list and the walk descends into that child, while a token matching
no child keyword stops the walk, leaving it and all later tokens as the
remaining tokens; on the tree root→A→B with input
`["A", "X"]` the walk stops at node A with consumed `["A"]` and remaining
`["X"]`. -/
theorem walk_step_spec (node c node' : Node) (t t' : String) (rest rest' : List String)
    (hne : node.subtree.isEmpty = false)
    (hsome : lookupKeyword node.subtree t = some c)
    (hne' : node'.subtree.isEmpty = false)
    (hnone : lookupKeyword node'.subtree t' = Option.none) :
    walk node (t :: rest) =
      ⟨(walk c rest).node, t :: (walk c rest).consumed, (walk c rest).remaining⟩ ∧
    walk node' (t' :: rest') = ⟨node', [], t' :: rest'⟩ ∧
    walk exRoot ["A", "X"] = ⟨exA, ["A"], ["X"]⟩ := by
  refine ⟨?_, ?_, rfl⟩
  · simp [walk, hne, hsome]
  · simp [walk, hne', hnone]

/-- Witness for `walk_step_spec` at the example tree root→A→B:
matching token `"A"` descends, non-matching token `"X"` at node A stops. -/
theorem walk_step_spec_witness :
    walk exRoot ("A" :: ["Q"]) =
      ⟨(walk exA ["Q"]).node, "A" :: (walk exA ["Q"]).consumed, (walk exA ["Q"]).remaining⟩ ∧
    walk exA ("X" :: ["Y"]) = ⟨exA, [], "X" :: ["Y"]⟩ ∧
    walk exRoot ["A", "X"] = ⟨exA, ["A"], ["X"]⟩ :=
  walk_step_spec exRoot exA exA "A" "X" ["Q"] ["Y"] rfl rfl rfl rfl

/-- C2 counterexample: in the strict variant's scanning loop a `"-h"` token
is dropped from the token stream (recorded only as the help flag), so
consumed ++ remaining ≠ T for the input `["-h"]` against the example tree. -/
theorem walkStd_token_drop_cex :
    (walkStd exRoot ["-h"]).consumed ++ (walkStd exRoot ["-h"]).remaining ≠ ["-h"] := by
  decide

/-- C2 (amended): the shared keyword walk satisfies
consumed ++ remaining = T for every tree and every token list T, including
lists containing `"help"`, `"?"` or any other token; the strict variant's
scanning loop satisfies it for every token list containing no `"-h"` or
`"--help"` token (tokens it drops while recording the help flag). -/
theorem walk_token_preservation (node node2 : Node) (toks toks2 : List String)
    (hnh : ∀ t ∈ toks2, t ≠ "-h" ∧ t ≠ "--help") :
    (walk node toks).consumed ++ (walk node toks).remaining = toks ∧
    (walkStd node2 toks2).consumed ++ (walkStd node2 toks2).remaining = toks2 :=
  ⟨walk_app_aux toks node, walkStd_app_aux toks2 node2 hnh⟩

/-- Witness for `walk_token_preservation`: the shared walk on
`["help", "A", "?"]` and the strict loop on `["A", "X"]`. -/
theorem walk_token_preservation_witness :
    (walk exRoot ["help", "A", "?"]).consumed ++ (walk exRoot ["help", "A", "?"]).remaining =
      ["help", "A", "?"] ∧
    (walkStd exRoot ["A", "X"]).consumed ++ (walkStd exRoot ["A", "X"]).remaining = ["A", "X"] :=
  walk_token_preservation exRoot exRoot ["help", "A", "?"] ["A", "X"] (by decide)

/-- C7: an arg type string other than the five accepted ones makes schema
construction fail with the unrecognised-type error carrying that string,
while each accepted type string maps to the corresponding Python type. -/
theorem process_type_spec (s : String)
    (h : s ≠ "integer" ∧ s ≠ "string" ∧ s ≠ "float" ∧ s ≠ "flag" ∧ s ≠ "text") :
    process_type_field s = .error (.unrecognisedType s) ∧
    process_type_field "integer" = .ok .int ∧
    process_type_field "string" = .ok .str ∧
    process_type_field "float" = .ok .float ∧
    process_type_field "flag" = .ok .bool ∧
    process_type_field "text" = .ok .list := by
  refine ⟨?_, rfl, rfl, rfl, rfl, rfl⟩
  simp [process_type_field, h.1, h.2.1, h.2.2.1, h.2.2.2.1, h.2.2.2.2]

/-- Witness for `process_type_spec` at the unknown type string `"bogus"`. -/
theorem process_type_spec_witness :
    ("bogus" ≠ "integer" ∧ "bogus" ≠ "string" ∧ "bogus" ≠ "float" ∧
      "bogus" ≠ "flag" ∧ "bogus" ≠ "text") ∧
    (process_type_field "bogus" = .error (.unrecognisedType "bogus") ∧
      process_type_field "integer" = .ok .int ∧
      process_type_field "string" = .ok .str ∧
      process_type_field "float" = .ok .float ∧
      process_type_field "flag" = .ok .bool ∧
      process_type_field "text" = .ok .list) :=
  ⟨by decide, process_type_spec "bogus" (by decide)⟩

/-- Characterisation of `bot.py`'s help detection: the flag is set exactly
when `"help"` is the first token of the original input or `"?"`/`"help"` is
its last token. -/
theorem botDetectHelp_fst_iff (T : List String) :
    (botDetectHelp T).1 = true ↔
      (T.head? = some "help" ∨ T.getLast? = some "?" ∨ T.getLast? = some "help") := by
  cases T with
  | nil => simp [botDetectHelp]
  | cons t rest =>
    by_cases ht : t = "help"
    · subst ht
      simp only [botDetectHelp, if_pos rfl]
      cases h : rest.getLast? with
      | none => simp [h]
      | some last =>
        by_cases hl : last = "?" ∨ last = "help" <;> simp [h, hl]
    · simp only [botDetectHelp, if_neg ht]
      cases h : (t :: rest).getLast? with
      | none =>
        rw [List.getLast?_eq_none_iff] at h
        exact absurd h (by simp)
      | some last =>
        simp only [h, List.head?_cons]
        by_cases hl : last = "?" ∨ last = "help"
        · rw [if_pos hl]
          refine ⟨fun _ => ?_, fun _ => rfl⟩
          rcases hl with hl | hl
          · exact Or.inr (Or.inl (by rw [hl]))
          · exact Or.inr (Or.inr (by rw [hl]))
        · rw [if_neg hl]
          push_neg at hl
          simp [ht, hl.1, hl.2]

/-- The built-in argparse help action fires as soon as the token `--help` is
at the front of the argument list of an `add_help` parser. -/
theorem bindLoop_help_head (opts : List OptSpec) (poss : List PosSpec)
    (l : List String) (vals : Bindings) (extras : List String) :
    bindLoop true opts poss ("--help" :: l) vals extras = .helpHit := by
  simp [bindLoop]

/-- When `bot.py`'s help detection does not fire, the outcome of the
permissive parse is never the help path: it proceeds to binding. -/
theorem bot_no_help_aux (schema : Node) (T : List String)
    (hb : (botDetectHelp T).1 = false) :
    (botParse schema T).isHelpShown = false := by
  simp only [botParse, hb, Bool.false_eq_true, if_false]
  split
  · rfl
  · split
    · rfl
    · rfl
    · split <;> rfl

/-- C3: the permissive variant triggers help exactly when `"help"` is the
first token of the original input or `"?"`/`"help"` is its last token (a
`"help"` token in a middle position is passed through to walking and binding
as a literal token); when triggered, the marker tokens are stripped, the
usage text of the node reached by walking the stripped input is printed, and
the process exits with status 0 without binding. -/
theorem bot_help_trigger (schema : Node) (T : List String) :
    ((botParse schema T).isHelpShown = true ↔
      (T.head? = some "help" ∨ T.getLast? = some "?" ∨ T.getLast? = some "help")) ∧
    ((T.head? = some "help" ∨ T.getLast? = some "?" ∨ T.getLast? = some "help") →
      botParse schema T =
        .helpShown (some (format_help (walk schema (botDetectHelp T).2).consumed
          (walk schema (botDetectHelp T).2).node)) 0) := by
  have hiff := botDetectHelp_fst_iff T
  constructor
  · rw [← hiff]
    cases hb : (botDetectHelp T).1 with
    | true => simp [botParse, hb, Outcome.isHelpShown]
    | false => rw [bot_no_help_aux schema T hb]
  · intro hT
    have hb : (botDetectHelp T).1 = true := hiff.mpr hT
    simp [botParse, hb]

/-- Witness for `bot_help_trigger` at the `status` schema with input
`["status", "?"]` (help marker in last position). -/
theorem bot_help_trigger_witness :
    botParse exRootS ["status", "?"] = .helpShown (some "<bot> status [verbose]") 0 :=
  (bot_help_trigger exRootS ["status", "?"]).2 (Or.inr (Or.inl rfl))

/-- C4: in the strict variant's scanning loop a head token `-h`/`--help` at a
node that still has children is removed from the token stream without being
added to the consumed keywords, the help flag is recorded, and scanning
continues at the same node, so the walk result is that of the same loop
without the token but with `showHelp` set; a recorded help flag then makes
`parse_args` print help for the final node reached and exit with status 0. -/
theorem std_help_scan (node : Node) (t : String) (rest : List String)
    (schema : Node) (T : List String) (opts : List OptSpec) (poss : List PosSpec)
    (hne : node.subtree.isEmpty = false)
    (ht : t = "-h" ∨ t = "--help")
    (hsh : (walkStd schema T).showHelp = true)
    (hsp : toSpecs (walkStd schema T).node.args = .ok (opts, poss)) :
    walkStd node (t :: rest) =
      ⟨(walkStd node rest).node, (walkStd node rest).consumed,
        (walkStd node rest).remaining, true⟩ ∧
    standardParse schema T = .helpShown Option.none 0 := by
  constructor
  · simp only [walkStd, hne, Bool.false_eq_true, if_false]
    rw [if_pos ht]
  · simp only [standardParse]
    rw [hsh, hsp]
    simp [bindLoop_help_head]

/-- Witness for `std_help_scan`: token `"-h"` at the example root, and the
full strict pipeline on input `["-h"]`. -/
theorem std_help_scan_witness :
    walkStd exRoot ("-h" :: []) =
      ⟨(walkStd exRoot []).node, (walkStd exRoot []).consumed,
        (walkStd exRoot []).remaining, true⟩ ∧
    standardParse exRoot ["-h"] = .helpShown Option.none 0 :=
  std_help_scan exRoot "-h" [] exRoot ["-h"] [] [] rfl (Or.inl rfl) rfl rfl

/-- C5 counterexample: in the strict variant a malformed post-walk token does
not raise a structured failure to the caller — the underlying default
argparse parser prints usage plus the error message and exits the process
with status 2 (here on the token `"nonkw"`, which matches no keyword and no
declared argument). -/
theorem standard_malformed_cex :
    standardParse exRootS ["nonkw"] = .errorShown "unrecognized arguments: nonkw" 2 := rfl

/-- C5 (amended): in the strict variant, malformed post-walk tokens are
handled by argparse's standard error path: a parse error (wrong option
arity, missing required argument, or unrecognized leftover tokens) makes the
parser print usage plus the error message and exit with status 2; no
structured failure reaches the caller (the raising custom parser belongs to
the permissive variant). -/
theorem standard_malformed_amended (schema : Node) (T : List String)
    (opts opts2 : List OptSpec) (poss poss2 : List PosSpec) (msg : String)
    (schema2 : Node) (T2 : List String) (vals : Bindings) (extras : List String)
    (hsh : (walkStd schema T).showHelp = false)
    (hsp : toSpecs (walkStd schema T).node.args = .ok (opts, poss))
    (hbind : bindLoop true opts poss (walkStd schema T).remaining
      (initBindings opts poss) [] = .parseError msg)
    (hsh2 : (walkStd schema2 T2).showHelp = false)
    (hsp2 : toSpecs (walkStd schema2 T2).node.args = .ok (opts2, poss2))
    (hbind2 : bindLoop true opts2 poss2 (walkStd schema2 T2).remaining
      (initBindings opts2 poss2) [] = .done vals extras)
    (hex : extras.isEmpty = false) :
    standardParse schema T = .errorShown msg 2 ∧
    standardParse schema2 T2 =
      .errorShown ("unrecognized arguments: " ++ String.intercalate " " extras) 2 := by
  constructor
  · simp [standardParse, hsh, hsp, hbind]
  · simp [standardParse, hsh2, hsp2, hbind2, hex]

/-- Witness for `standard_malformed_amended`: a single-value option given no
value (`["set", "--x"]`), and a leftover unrecognized token
(`["status", "stray"]`). -/
theorem standard_malformed_amended_witness :
    standardParse exRootSet ["set", "--x"] =
      .errorShown "argument --x: expected one argument" 2 ∧
    standardParse exRootS ["status", "stray"] =
      .errorShown ("unrecognized arguments: " ++ String.intercalate " " ["stray"]) 2 :=
  standard_malformed_amended exRootSet ["set", "--x"]
    [⟨"--x", "x", .single⟩] [⟨"--verbose", "verbose", .flag⟩] [] []
    "argument --x: expected one argument" exRootS ["status", "stray"]
    [("verbose", .bool false)] ["stray"] rfl rfl rfl rfl rfl rfl rfl

/-- Whenever the strict variant returns a namespace, its `remaining_args`
attribute is the full post-walk token list. -/
theorem standardParse_ok_rem_aux (schema : Node) (T : List String) (c : Option String)
    (v : Bindings) (r : List String) (h : standardParse schema T = .ok c v r) :
    r = (walkStd schema T).remaining := by
  cases hsh : (walkStd schema T).showHelp with
  | true =>
    exfalso
    simp only [standardParse, hsh] at h
    rw [if_pos trivial] at h
    split at h
    · simp at h
    · rw [bindLoop_help_head] at h
      simp at h
  | false =>
    simp only [standardParse, hsh] at h
    rw [if_neg Bool.false_ne_true] at h
    split at h
    · simp at h
    · split at h
      · simp at h
      · simp at h
      · split at h
        · simp only [Outcome.ok.injEq] at h
          exact h.2.2.symm
        · simp at h

/-- Whenever the permissive variant returns a namespace, its `remaining_args`
attribute is the full (pre-rewrite) post-walk token list. -/
theorem botParse_ok_rem_aux (schema : Node) (T : List String) (c : Option String)
    (v : Bindings) (r : List String) (h : botParse schema T = .ok c v r) :
    r = (walk schema (botDetectHelp T).2).remaining := by
  cases hb : (botDetectHelp T).1 with
  | true =>
    exfalso
    simp only [botParse, hb] at h
    rw [if_pos trivial] at h
    simp at h
  | false =>
    simp only [botParse, hb] at h
    rw [if_neg Bool.false_ne_true] at h
    split at h
    · simp at h
    · split at h
      · simp at h
      · simp at h
      · split at h
        · simp only [Outcome.ok.injEq] at h
          exact h.2.2.symm
        · simp at h

/-- C8 counterexample: after a successful bind of `["status", "--verbose"]`
the namespace's `remaining_args` is the full post-walk list `["--verbose"]`,
not the empty list of unmatched trailing tokens (the `--verbose` token was
consumed as an option name); and a genuinely unmatched trailing token is not
preserved as a success — it is an `unrecognized arguments` error. -/
theorem remaining_args_cex :
    standardParse exRootS ["status", "--verbose"] =
      .ok (some "show_status") [("verbose", PyVal.bool true)] ["--verbose"] ∧
    standardParse exRootS ["status", "xtra"] =
      .errorShown "unrecognized arguments: xtra" 2 := ⟨rfl, rfl⟩

/-- C8 (amended): in both variants, the `remaining_args` attribute of a
successfully returned namespace is the entire post-walk token list —
including tokens consumed during binding as option names, values or
positionals — and not the set of unmatched trailing tokens; tokens matched
by no rule do not yield a successful bind with leftovers but an
`unrecognized arguments` parse error. -/
theorem remaining_args_amended (schema : Node) (T : List String)
    (c : Option String) (v : Bindings) (r : List String)
    (schema2 : Node) (T2 : List String) (c2 : Option String) (v2 : Bindings) (r2 : List String)
    (h1 : standardParse schema T = .ok c v r)
    (h2 : botParse schema2 T2 = .ok c2 v2 r2) :
    r = (walkStd schema T).remaining ∧
    r2 = (walk schema2 (botDetectHelp T2).2).remaining :=
  ⟨standardParse_ok_rem_aux schema T c v r h1, botParse_ok_rem_aux schema2 T2 c2 v2 r2 h2⟩

/-- Witness for `remaining_args_amended` at a strict parse of
`["status", "--verbose"]` and a permissive parse of `["status"]`. -/
theorem remaining_args_amended_witness :
    (["--verbose"] : List String) = (walkStd exRootS ["status", "--verbose"]).remaining ∧
    ([] : List String) = (walk exRootS (botDetectHelp ["status"]).2).remaining :=
  remaining_args_amended exRootS ["status", "--verbose"]
    (some "show_status") [("verbose", .bool true)] ["--verbose"]
    exRootS ["status"] (some "show_status") [("verbose", .bool false)] []
    rfl rfl

/-- The walk-loop transition relation is functional: a state has at most one
successor. -/
theorem wstep_det_aux (s u v : WalkState) (h1 : WStep s u) (h2 : WStep s v) :
    u = v := by
  cases h1 with
  | descend sch ca node child cons t rest hne hc =>
    cases h2 with
    | descend _ _ _ child' _ _ _ hne' hc' =>
      rw [hc] at hc'
      injection hc' with h
      subst h
      rfl

/-- Any number of walk-loop iterations leaves the schema tree and the
caller's token list unchanged. -/
theorem wsteps_preserve_aux (u v : WalkState) (h : Relation.ReflTransGen WStep u v) :
    v.schema = u.schema ∧ v.callerArgs = u.callerArgs := by
  induction h with
  | refl => exact ⟨rfl, rfl⟩
  | tail hab hbc ih =>
    cases hbc
    exact ⟨ih.1, ih.2⟩

/-- The functional walk computes exactly a reachable fixpoint of the loop
relation: from any loop state, iterating reaches the state carrying `walk`'s
terminal node, consumed list, and remaining list. -/
theorem walk_reachable_aux (sch : Node) (ca : List String) :
    ∀ (toks : List String) (node : Node) (consumed : List String),
    Relation.ReflTransGen WStep ⟨sch, ca, node, consumed, toks⟩
      ⟨sch, ca, (walk node toks).node, consumed ++ (walk node toks).consumed,
        (walk node toks).remaining⟩ := by
  intro toks
  induction toks with
  | nil =>
    intro node consumed
    simp only [walk]
    simpa using Relation.ReflTransGen.refl
  | cons t rest ih =>
    intro node consumed
    cases hne : node.subtree.isEmpty with
    | true =>
      simp only [walk, hne, if_true]
      simpa using Relation.ReflTransGen.refl
    | false =>
      cases hc : lookupKeyword node.subtree t with
      | none =>
        simp only [walk, hne, Bool.false_eq_true, if_false, hc]
        simpa using Relation.ReflTransGen.refl
      | some c =>
        have step := WStep.descend sch ca node c consumed t rest hne hc
        have tl := ih c (consumed ++ [t])
        have hsteps := Relation.ReflTransGen.head step tl
        rw [List.append_assoc] at hsteps
        simp only [List.singleton_append] at hsteps
        simp only [walk, hne, Bool.false_eq_true, if_false, hc]
        exact hsteps

/-- C9: the walk is a deterministic pure function of the schema and token
list: the loop's transition relation is functional (two runs from one state
agree), iterating it never mutates the schema or the caller's token list,
and from the initial state (root node, no consumed tokens) it reaches
exactly the `(terminalNode, consumed, remaining)` computed by `walk`. -/
theorem walk_det_pure (sch : Node) (T : List String) (s u v a b : WalkState)
    (h1 : WStep s u) (h2 : WStep s v) (h3 : Relation.ReflTransGen WStep a b) :
    u = v ∧ (b.schema = a.schema ∧ b.callerArgs = a.callerArgs) ∧
    Relation.ReflTransGen WStep ⟨sch, T, sch, [], T⟩
      ⟨sch, T, (walk sch T).node, (walk sch T).consumed, (walk sch T).remaining⟩ :=
  ⟨wstep_det_aux s u v h1 h2, wsteps_preserve_aux a b h3,
    by simpa using walk_reachable_aux sch T T sch []⟩

/-- Witness for `walk_det_pure`: two applications of the loop step at the
example root on token `"A"` agree, iteration from a state preserves schema
and caller list, and `walk` is reached from the initial state. -/
theorem walk_det_pure_witness :
    (⟨exRoot, ["A"], exA, ["A"], []⟩ : WalkState) = ⟨exRoot, ["A"], exA, ["A"], []⟩ ∧
    ((⟨exRoot, ["A"], exRoot, [], ["A"]⟩ : WalkState).schema =
        (⟨exRoot, ["A"], exRoot, [], ["A"]⟩ : WalkState).schema ∧
      (⟨exRoot, ["A"], exRoot, [], ["A"]⟩ : WalkState).callerArgs =
        (⟨exRoot, ["A"], exRoot, [], ["A"]⟩ : WalkState).callerArgs) ∧
    Relation.ReflTransGen WStep ⟨exRoot, ["A"], exRoot, [], ["A"]⟩
      ⟨exRoot, ["A"], (walk exRoot ["A"]).node, (walk exRoot ["A"]).consumed,
        (walk exRoot ["A"]).remaining⟩ :=
  walk_det_pure exRoot ["A"]
    ⟨exRoot, ["A"], exRoot, [], ["A"]⟩ ⟨exRoot, ["A"], exA, ["A"], []⟩
    ⟨exRoot, ["A"], exA, ["A"], []⟩
    ⟨exRoot, ["A"], exRoot, [], ["A"]⟩ ⟨exRoot, ["A"], exRoot, [], ["A"]⟩
    (WStep.descend exRoot ["A"] exRoot exA [] "A" [] rfl rfl)
    (WStep.descend exRoot ["A"] exRoot exA [] "A" [] rfl rfl)
    Relation.ReflTransGen.refl

/-- C10: the permissive variant's pre-binding rewrite maps every token that
is exactly equal to the bare name of some non-positional argument of the
terminal node to its dash-prefixed form `--name`, and leaves every other
token unchanged — the rewrite looks only at token text, so it also fires on
tokens intended as values for other arguments (hypothesis: no argument name
is itself the dash-prefixed form of another, which holds for ordinary names
not starting with a dash). -/
theorem rewrite_bare_names (args : List Arg) (argv : List String)
    (H : ∀ x ∈ args, ∀ y ∈ args, y.name ≠ "--" ++ x.name) :
    rewriteArgv args argv =
      argv.map fun t =>
        if args.any fun a => !a.positional && a.name == t then "--" ++ t else t := by
  induction args generalizing argv with
  | nil => simp [rewriteArgv]
  | cons a args ih =>
    have Hrest : ∀ x ∈ args, ∀ y ∈ args, y.name ≠ "--" ++ x.name := fun x hx y hy =>
      H x (List.mem_cons_of_mem a hx) y (List.mem_cons_of_mem a hy)
    by_cases hpos : a.positional
    · rw [show rewriteArgv (a :: args) argv = rewriteArgv args argv from by
        simp [rewriteArgv, hpos]]
      rw [ih argv Hrest]
      apply List.map_congr_left
      intro t _
      simp [List.any_cons, hpos]
    · rw [show rewriteArgv (a :: args) argv = rewriteArgv args (rewritePass a.name argv) from by
        simp [rewriteArgv, hpos]]
      rw [ih _ Hrest]
      unfold rewritePass
      rw [List.map_map]
      apply List.map_congr_left
      intro t _
      simp only [Function.comp_apply]
      by_cases htn : t = a.name
      · rw [if_pos htn]
        have hnone : (args.any fun b => !b.positional && b.name == "--" ++ a.name) = false := by
          rw [List.any_eq_false]
          intro b hb
          have hb' : b.name ≠ "--" ++ a.name :=
            H a (List.mem_cons_self a args) b (List.mem_cons_of_mem a hb)
          simp [hb']
        rw [htn]
        simp [List.any_cons, hpos, hnone]
      · rw [if_neg htn]
        have hne : (a.name == t) = false := by
          simp [Ne.symm htn]
        simp [List.any_cons, hne]

/-- Witness for `rewrite_bare_names`: with the non-positional flag `verbose`,
the token `"verbose"` is rewritten to `"--verbose"` and the other tokens are
untouched. -/
theorem rewrite_bare_names_witness :
    rewriteArgv [exVerbose] ["verbose", "z", "--w"] =
      (["verbose", "z", "--w"].map fun t =>
        if [exVerbose].any fun a => !a.positional && a.name == t then "--" ++ t else t) :=
  rewrite_bare_names [exVerbose] ["verbose", "z", "--w"] (by decide)

/-- A per-field well-formed raw arg always builds, preserving its name. -/
theorem arg_from_dict_ok (a : RawArg) (h : wfRawArg a = true) :
    ∃ a', Arg.from_dict a = .ok a' ∧ a'.name = a.name := by
  unfold wfRawArg at h
  simp only [Bool.and_eq_true, Bool.or_eq_true, beq_iff_eq] at h
  obtain ⟨hh, ht⟩ := h
  cases hhelp : a.help with
  | none => rw [hhelp] at hh; simp at hh
  | some hs =>
    unfold Arg.from_dict
    rw [hhelp]
    rcases ht with ((((ht | ht) | ht) | ht) | ht) <;>
      rw [ht] <;> exact ⟨_, rfl, rfl⟩

/-- A per-field well-formed raw args list always builds, preserving the
names in order (duplicates included). -/
theorem process_args_ok (l : List RawArg) (h : wfRawArgs l = true) :
    ∃ as, process_args_field l = .ok as ∧ as.map Arg.name = l.map RawArg.name := by
  induction l with
  | nil => exact ⟨[], rfl, rfl⟩
  | cons a rest ih =>
    simp only [wfRawArgs, Bool.and_eq_true] at h
    obtain ⟨a', ha', hname⟩ := arg_from_dict_ok a h.1
    obtain ⟨as, has, hnames⟩ := ih h.2
    refine ⟨a' :: as, ?_, ?_⟩
    · unfold process_args_field
      rw [ha', has]
    · simp [hname, hnames]

mutual

/-- A per-field well-formed raw sub-node always builds, preserving its
keyword. -/
theorem sub_from_dict_ok (d : RawNode) (h : wfSub d = true) :
    ∃ n, SubNode_from_dict d = .ok n ∧ n.keyword = d.keyword := by
  cases d with
  | mk kw hp c args st =>
    simp only [wfSub, Bool.and_eq_true] at h
    obtain ⟨⟨⟨hkw, hhp⟩, hargs⟩, hst⟩ := h
    cases hkwv : kw with
    | none => rw [hkwv] at hkw; simp at hkw
    | some k =>
      cases hhpv : hp with
      | none => rw [hhpv] at hhp; simp at hhp
      | some hs =>
        obtain ⟨as, has, -⟩ := process_args_ok args hargs
        obtain ⟨ns, hns, -⟩ := subList_from_dict_ok st hst
        refine ⟨.mk (some k) hs c as ns, ?_, rfl⟩
        unfold SubNode_from_dict
        rw [has, hns]

/-- A per-field well-formed raw subtree always builds, preserving the
sibling keywords in order (duplicates included). -/
theorem subList_from_dict_ok (l : List RawNode) (h : wfSubList l = true) :
    ∃ ns, process_subtree_field l = .ok ns ∧
      ns.map Node.keyword = l.map RawNode.keyword := by
  cases l with
  | nil => exact ⟨[], rfl, rfl⟩
  | cons n rest =>
    simp only [wfSubList, Bool.and_eq_true] at h
    obtain ⟨n', hn', hkw⟩ := sub_from_dict_ok n h.1
    obtain ⟨ns, hns, hkws⟩ := subList_from_dict_ok rest h.2
    refine ⟨n' :: ns, ?_, ?_⟩
    · unfold process_subtree_field
      rw [hn', hns]
    · simp [hkw, hkws]

end

/-- C6 (amended): schema construction validates only per-field
well-formedness (help present, recognized type strings, keyword present on
sub-nodes and absent on the root); it performs no sibling-keyword or
argument-name uniqueness check, so every such configuration — including one
whose sibling keywords or argument names collide — builds successfully into
a tree that preserves the colliding keywords and names. -/
theorem schema_build_no_uniqueness (d : RawNode)
    (hkw : d.keyword = Option.none)
    (hh : d.help.isSome = true)
    (hargs : wfRawArgs d.args = true)
    (hsub : wfSubList d.subtree = true) :
    (RootNode_from_dict d).toOption.map (fun n => n.subtree.map Node.keyword) =
      some (d.subtree.map RawNode.keyword) ∧
    (RootNode_from_dict d).toOption.map (fun n => n.args.map Arg.name) =
      some (d.args.map RawArg.name) := by
  cases d with
  | mk kw hp c args st =>
    simp only [RawNode.keyword] at hkw
    simp only [RawNode.help] at hh
    simp only [RawNode.args] at hargs
    simp only [RawNode.subtree, RawNode.args] at hsub ⊢
    subst hkw
    cases hhpv : hp with
    | none => rw [hhpv] at hh; simp at hh
    | some hs =>
      subst hhpv
      obtain ⟨as, has, hnames⟩ := process_args_ok args hargs
      obtain ⟨ns, hns, hkws⟩ := subList_from_dict_ok st hsub
      simp only [RootNode_from_dict]
      rw [has, hns]
      constructor
      · simp [Except.toOption, Node.subtree, hkws]
      · simp [Except.toOption, Node.args, hnames]

/-- Witness for `schema_build_no_uniqueness` at a configuration carrying a
sibling-keyword collision and an arg-name collision at once. -/
theorem schema_build_no_uniqueness_witness :
    (RootNode_from_dict rawDupBoth).toOption.map (fun n => n.subtree.map Node.keyword) =
      some [some "a", some "a"] ∧
    (RootNode_from_dict rawDupBoth).toOption.map (fun n => n.args.map Arg.name) =
      some ["x", "x"] :=
  schema_build_no_uniqueness rawDupBoth rfl rfl rfl rfl
